import Mathlib

/-!
Verification development for the multi-server Elastic Agent log analyzer.

The definitions below are a shallow embedding of the log correlation and
analysis engine of `elastic_agent_log_analyzer.py`: record normalization,
the per-server collection (`ServerGroup`), the filter layer, the two
correlation algorithms of `ComparisonEngine`, and the statistical
analyzers of `ServerViewer`.  Python `datetime` instants are modelled as
microsecond counts (`Timestamp.real`), with `Timestamp.sentinel` playing
the role of `datetime.min`, the value stored for missing or unparsable
timestamps.  Decoded JSON documents are modelled by the inductive `Json`
(association lists for objects, rational numbers for JSON numbers).
`difflib.SequenceMatcher` (used by `ComparisonEngine.calculate_similarity`
with `isjunk=None` and the default `autojunk=True`) is embedded in full:
the b2j index with the autojunk purge of popular elements, the dynamic
program of `find_longest_match`, its two non-junk extension loops (the two
junk extension loops can never fire because `isjunk=None` leaves `bjunk`
empty), and the recursive block decomposition of `get_matching_blocks`.
-/

namespace LogAnalyzer

/-- Model of a Python `datetime` value as stored in `parsed_timestamp`:
either the sentinel `datetime.min` (the value stored for missing or
unparsable timestamps) or a real instant, measured in microseconds.  The
two kinds live on different Python `datetime` scales: the standard
Z-suffixed Elastic `@timestamp` parses through
`fromisoformat(ts.replace('Z', '+00:00'))` to a timezone-AWARE datetime,
while `datetime.min` is NAIVE.  Python's `==`/`!=` on a naive/aware pair
simply return unequal, but an ORDER comparison (`<`, `<=`, `>`) between
them raises `TypeError` — so order on `Timestamp` is partial, and every
use of an order below goes through an explicit guard or an
`Except`-valued comparison. -/
inductive Timestamp
  | sentinel
  | real (micros : Nat)
deriving DecidableEq, Repr

/-- A raised Python exception of the modelled fragment. -/
inductive PyError
  | typeError
deriving DecidableEq, Repr

/-- The ascending key order that a SUCCESSFUL sort establishes: sentinel
first, real instants by value.  On comparable pairs (two sentinels or
two reals) this is exactly Python's `<=`; a naive/aware mixed pair
raises `TypeError` instead, so the model applies this total order only
on lists that pass the `mixedTs` / `eqStatusMixed` guards below. -/
def tsLeB : Timestamp → Timestamp → Bool
  | .sentinel, _ => true
  | .real _, .sentinel => false
  | .real a, .real b => a ≤ b

/-- Decoded JSON documents (the result of `json.loads` on one line).
Objects are association lists; numbers are modelled as rationals. -/
inductive Json
  | null
  | bool (b : Bool)
  | num (q : ℚ)
  | str (s : String)
  | arr (elems : List Json)
  | obj (fields : List (String × Json))

/-- Dictionary lookup on a decoded JSON object, `d[k]` / `k in d`. -/
def objGet (j : Json) (key : String) : Option Json :=
  match j with
  | .obj fields => fields.lookup key
  | _ => none

/-- ASCII lower-casing of one character (Python `str.lower`; the
comparands of the engine — level names, status keywords, messages — are
ASCII, so the Unicode cases of `str.lower` are not modelled). -/
def lowerChar (c : Char) : Char :=
  if c.isUpper then Char.ofNat (c.toNat + 32) else c

/-- Python `str.lower` under the ASCII model. -/
def pyLower (s : String) : String :=
  String.mk (s.data.map lowerChar)

/-- Python `d.get(key, default)` on a field list of a decoded object. -/
def pyGet (fields : List (String × Json)) (key : String) (dflt : Json) : Json :=
  (fields.lookup key).getD dflt

/-! ## difflib.SequenceMatcher -/

/-- Indices of the occurrences of `c` in `b`, ascending: one chain of the
`b2j` dictionary built by `SequenceMatcher.__chain_b`. -/
def positions (b : List Char) (c : Char) : List Nat :=
  (List.range b.length).filter (fun j => b[j]? = some c)

/-- The `b2j` index after the autojunk purge: with `autojunk=True` and
`len(b) >= 200`, elements occurring more than `len(b) // 100 + 1` times
are dropped from the index (`isjunk=None`, so no junk purge happens). -/
def b2j (b : List Char) (c : Char) : List Nat :=
  let idxs := positions b c
  if 200 ≤ b.length && b.length / 100 + 1 < idxs.length then [] else idxs

/-- Inner loop of `find_longest_match` for one row `i`: scan the chain of
`a[i]` in `b2j`, skipping `j < blo` (`continue`) and stopping at
`j >= bhi` (`break`), building `newj2len` from the previous row `p` and
updating the best block on a strictly larger run.  Python's `j-1` key
lookup falls off the dictionary (default `0`) when `j = 0`. -/
def flmInner (p : Nat → Nat) (i blo bhi : Nat) :
    List Nat → (Nat → Nat) → Nat × Nat × Nat → (Nat → Nat) × Nat × Nat × Nat
  | [], m, best => (m, best)
  | j :: js, m, best =>
    if j < blo then flmInner p i blo bhi js m best
    else if bhi ≤ j then (m, best)
    else
      let k := (if j = 0 then 0 else p (j - 1)) + 1
      let m' := fun j' => if j' = j then k else m j'
      if best.2.2 < k then flmInner p i blo bhi js m' (i + 1 - k, j + 1 - k, k)
      else flmInner p i blo bhi js m' best

/-- Outer loop of `find_longest_match`: one `flmInner` pass per row index,
threading the row map (`j2len`) and the best block. -/
def flmOuter (a : List Char) (bj : Char → List Nat) (blo bhi : Nat) :
    List Nat → (Nat → Nat) → Nat × Nat × Nat → Nat × Nat × Nat
  | [], _, best => best
  | i :: is, p, best =>
    let r := flmInner p i blo bhi (bj (a.getD i 'a')) (fun _ => 0) best
    flmOuter a bj blo bhi is r.1 r.2

/-- First non-junk extension loop of `find_longest_match`: grow the best
block backwards while the adjacent elements are equal.  `fuel` only
drives structural recursion; the loop decrements `bi` at every step, so
`fuel = bi` runs the loop to completion. -/
def extendBack (a b : List Char) (alo blo : Nat) :
    Nat → Nat → Nat → Nat → Nat × Nat × Nat
  | 0, bi, bj, bk => (bi, bj, bk)
  | fuel + 1, bi, bj, bk =>
    if alo < bi ∧ blo < bj ∧ a.getD (bi - 1) 'a' = b.getD (bj - 1) 'a' then
      extendBack a b alo blo fuel (bi - 1) (bj - 1) (bk + 1)
    else (bi, bj, bk)

/-- Second non-junk extension loop of `find_longest_match`: grow the best
block forwards while the adjacent elements are equal.  The loop stops
before `bi + bk` reaches `ahi`, so `fuel = ahi` runs it to completion. -/
def extendFwd (a b : List Char) (ahi bhi bi bj : Nat) : Nat → Nat → Nat
  | 0, bk => bk
  | fuel + 1, bk =>
    if bi + bk < ahi ∧ bj + bk < bhi ∧ a.getD (bi + bk) 'a' = b.getD (bj + bk) 'a' then
      extendFwd a b ahi bhi bi bj fuel (bk + 1)
    else bk

/-- `SequenceMatcher.find_longest_match` on the window
`a[alo:ahi]`, `b[blo:bhi]`.  With `isjunk=None` the junk set `bjunk` is
empty, so the two junk extension loops of the CPython source never fire
and are omitted. -/
def findLongestMatch (a b : List Char) (bj : Char → List Nat)
    (alo ahi blo bhi : Nat) : Nat × Nat × Nat :=
  let r := flmOuter a bj blo bhi (List.range' alo (ahi - alo)) (fun _ => 0) (alo, blo, 0)
  let r2 := extendBack a b alo blo r.1 r.1 r.2.1 r.2.2
  let k3 := extendFwd a b ahi bhi r2.1 r2.2.1 ahi r2.2.2
  (r2.1, r2.2.1, k3)

/-- Total length of the matching blocks found by the recursive window
decomposition of `get_matching_blocks` (the queue order does not affect
the sum).  `fuel` dominates the window width, which shrinks strictly at
every recursive call. -/
def matchTotalAux (a b : List Char) (bj : Char → List Nat) :
    Nat → Nat → Nat → Nat → Nat → Nat
  | 0, _, _, _, _ => 0
  | fuel + 1, alo, ahi, blo, bhi =>
    let r := findLongestMatch a b bj alo ahi blo bhi
    let i := r.1
    let j := r.2.1
    let k := r.2.2
    if k = 0 then 0
    else
      k + (if alo < i ∧ blo < j then matchTotalAux a b bj fuel alo i blo j else 0)
        + (if i + k < ahi ∧ j + k < bhi then matchTotalAux a b bj fuel (i + k) ahi (j + k) bhi else 0)

/-- Sum of matched block lengths of `SequenceMatcher(None, a, b)`. -/
def seqMatcherTotal (a b : List Char) : Nat :=
  matchTotalAux a b (b2j b) (a.length + 1) 0 a.length 0 b.length

/-- `SequenceMatcher.ratio()`: `2.0 * M / T` where `T = len(a) + len(b)`,
and `1.0` when `T = 0`. -/
def smRatio (a b : List Char) : ℚ :=
  let total := a.length + b.length
  if total = 0 then 1 else (2 * seqMatcherTotal a b : ℚ) / total

/-- `ComparisonEngine.calculate_similarity`:
`difflib.SequenceMatcher(None, str1, str2).ratio()`. -/
def calculate_similarity (str1 str2 : String) : ℚ :=
  smRatio str1.toList str2.toList

/-! ## The normalized log record and the per-server collection -/

/-- A processed log entry as produced by
`MultiServerLogViewer.process_log_entry` on a well-shaped document: the
canonical record shape of the engine (string-typed `level`, `component`
and message fields).  `timestamp` is the pre-rendered display string,
`parsed_timestamp` the UTC instant or the sentinel. -/
structure LogRecord where
  raw : Json
  line_number : Nat
  file_name : String
  server_name : String
  timestamp : String
  parsed_timestamp : Timestamp
  level : String
  component : String
  message : String
  full_message : String

/-- One server's data (`ServerGroup.__init__`): the processed logs plus
the derived component / level / file indexes.  Python's sets are modelled
as duplicate-free lists in insertion order. -/
structure ServerGroup where
  logs : List LogRecord
  components : List String
  log_levels : List String
  loaded_files : List String

/-- A fresh `ServerGroup`. -/
def emptyGroup : ServerGroup := ⟨[], [], [], []⟩

/-- Set insertion on the list model of a Python set. -/
def insertNew (l : List String) (s : String) : List String :=
  if s ∈ l then l else l ++ [s]

/-- `ServerGroup.add_log`. -/
def add_log (g : ServerGroup) (r : LogRecord) : ServerGroup :=
  { g with
    logs := g.logs ++ [r]
    components := insertNew g.components r.component
    log_levels := insertNew g.log_levels r.level }

/-- `ServerGroup.clear`. -/
def clearGroup (_ : ServerGroup) : ServerGroup := emptyGroup

/-- Snapshot returned by `ServerGroup.get_stats`. -/
structure Stats where
  total_logs : Nat
  components : Nat
  files : Nat
  errors : Nat
  warnings : Nat
deriving DecidableEq, Repr

/-- `ServerGroup.get_stats`. -/
def get_stats (g : ServerGroup) : Stats where
  total_logs := g.logs.length
  components := g.components.length
  files := g.loaded_files.length
  errors := (g.logs.filter (fun log => pyLower log.level == "error")).length
  warnings := (g.logs.filter (fun log => pyLower log.level ∈ ["warn", "warning"])).length

/-- One line of a log file as seen by `_load_file_thread` after
`json.loads`: blank (skipped), malformed JSON (`json.JSONDecodeError`,
skipped and counted), or a document that normalizes to the given record.
Normalization itself is modelled separately (`process_log_entry`); here
the per-line outcome is the input, since the loader only appends the
normalized records. -/
inductive RawLine
  | blank
  | malformed
  | doc (r : LogRecord)

/-- Sort key order used by `_load_file_thread`:
`logs.sort(key=lambda x: x.get('parsed_timestamp', datetime.min))`
(every processed record carries a `parsed_timestamp`).  This is the
order the sort establishes when every key comparison succeeds; see
`sortLogsE` for the `TypeError` path. -/
def recLeB (r s : LogRecord) : Bool :=
  tsLeB r.parsed_timestamp s.parsed_timestamp

/-- Is the record's `parsed_timestamp` the naive sentinel? -/
def isSentinelTs (r : LogRecord) : Bool :=
  match r.parsed_timestamp with
  | .sentinel => true
  | .real _ => false

/-- A record list whose sort keys mix the naive sentinel with aware real
timestamps.  Ordering the mixed list forces at least one naive/aware key
comparison — the order of a sentinel key relative to a real key cannot
be produced or inferred without comparing the two kinds — and any such
comparison raises `TypeError`; a single-kind list never raises. -/
def mixedTs (logs : List LogRecord) : Bool :=
  logs.any isSentinelTs && logs.any (fun r => !(isSentinelTs r))

/-- `server_group.logs.sort(key=...)` (line 540): the sort succeeds —
stable, ascending by key — exactly when the keys do not mix naive and
aware datetimes, and raises `TypeError` otherwise. -/
def sortLogsE (logs : List LogRecord) : Except PyError (List LogRecord) :=
  if mixedTs logs then .error .typeError
  else .ok (logs.insertionSort (fun r s => recLeB r s = true))

/-- The per-line step of `_load_file_thread`: well-formed lines are
appended via `add_log`, blank and malformed lines are skipped. -/
def loadStep (acc : ServerGroup) (line : RawLine) : ServerGroup :=
  match line with
  | .doc r => add_log acc r
  | _ => acc

/-- `MultiServerLogViewer._load_file_thread`: record the file name in
`loaded_files` first, append the record of every well-formed line in
order via `add_log`, then re-sort `logs` by timestamp (Python's `sort`
is stable, as is the insertion sort of the model).  When the accumulated
list mixes naive and aware timestamps the sort raises `TypeError`; the
bare `except` of `_load_file_thread` (line 545) swallows it, and CPython
leaves the list in the state reached when the comparison raised — the
original order whenever the raise precedes the first element move, which
holds in particular for any two-element mixed list, whose very first key
comparison raises.  The model keeps the pre-sort order on this path; no
theorem below depends on the error-path order beyond the multiset of
records. -/
def load_file_thread (g : ServerGroup) (file_name : String) (lines : List RawLine) : ServerGroup :=
  let g1 := { g with loaded_files := insertNew g.loaded_files file_name }
  let g2 := lines.foldl loadStep g1
  match sortLogsE g2.logs with
  | .ok l => { g2 with logs := l }
  | .error _ => g2

/-- `MultiServerLogViewer.load_file` ("Load" semantics): clear the group,
then run the loading thread. -/
def load_file (g : ServerGroup) (file_name : String) (lines : List RawLine) : ServerGroup :=
  load_file_thread (clearGroup g) file_name lines

/-- `MultiServerLogViewer.add_file` ("Add" semantics): reject the file
before any mutation when its name is already in `loaded_files` (the
boolean result records whether the duplicate-file warning was raised),
otherwise run the loading thread. -/
def add_file (g : ServerGroup) (file_name : String) (lines : List RawLine) :
    ServerGroup × Bool :=
  if file_name ∈ g.loaded_files then (g, true)
  else (load_file_thread g file_name lines, false)

/-- A bulk mutation of one collection: "Load to server" or "Add to
server". -/
inductive Op
  | load (file_name : String) (lines : List RawLine)
  | add (file_name : String) (lines : List RawLine)

/-- Apply one load/add operation. -/
def applyOp (g : ServerGroup) : Op → ServerGroup
  | .load file_name lines => load_file g file_name lines
  | .add file_name lines => (add_file g file_name lines).1

/-- Run a sequence of load/add operations on a freshly registered
server. -/
def runOps (ops : List Op) : ServerGroup :=
  ops.foldl applyOp emptyGroup

/-! ## Filter engine -/

/-- Substring test, Python's `needle in hay` on strings. -/
def strContainsB (hay needle : String) : Bool :=
  (List.range (hay.toList.length + 1)).any
    (fun i => (hay.toList.drop i).take needle.toList.length = needle.toList)

mutual

/-- Model of `json.dumps` with its default separators, used only as the
serialized text the free-text search matches against (string escaping is
elided; Python would additionally escape quotes and control characters). -/
def dumps : Json → String
  | .null => "null"
  | .bool true => "true"
  | .bool false => "false"
  | .num q => toString q
  | .str s => "\"" ++ s ++ "\""
  | .arr elems => "[" ++ String.intercalate ", " (dumpsList elems) ++ "]"
  | .obj fields => "\x7b" ++ String.intercalate ", " (dumpsFields fields) ++ "\x7d"

/-- Serialize the elements of a JSON array. -/
def dumpsList : List Json → List String
  | [] => []
  | j :: js => dumps j :: dumpsList js

/-- Serialize the fields of a JSON object. -/
def dumpsFields : List (String × Json) → List String
  | [] => []
  | (k, v) :: fs => ("\"" ++ k ++ "\": " ++ dumps v) :: dumpsFields fs

end

/-- A parsed time bound of `ServerViewer.apply_filters`: an input string
carrying `Z` or a UTC offset parses through `fromisoformat` to a
timezone-AWARE datetime, while the `strptime('%Y-%m-%d %H:%M:%S')`
fallback (and offset-less ISO input) yields a NAIVE one.  Aware bounds
are measured in microseconds on the same UTC scale as the records' real
parsed timestamps; naive bounds in microseconds since `datetime.min`
(so `datetime.min` itself is `naive 0`). -/
inductive TimeBound
  | naive (micros : Nat)
  | aware (micros : Nat)
deriving DecidableEq, Repr

/-- `log['parsed_timestamp'] < start_time` (line 1305): the sentinel is
the naive `datetime.min` and real parsed timestamps are aware, so the
comparison raises `TypeError` unless the bound's kind matches the
record's. -/
def tsLtBoundE : Timestamp → TimeBound → Except PyError Bool
  | .sentinel, .naive n => .ok (decide (0 < n))
  | .real a, .aware b => .ok (decide (a < b))
  | _, _ => .error .typeError

/-- `log['parsed_timestamp'] > end_time` (line 1307): same kind rules as
`tsLtBoundE`; the naive sentinel never exceeds a naive bound. -/
def tsGtBoundE : Timestamp → TimeBound → Except PyError Bool
  | .sentinel, .naive _ => .ok false
  | .real a, .aware b => .ok (decide (b < a))
  | _, _ => .error .typeError

/-- The filter state of one `ServerViewer`, after the time strings have
been parsed: `component` / `level` / `file` equal `"All"` when
unconstrained, `search` is empty when unconstrained, and a time bound is
`none` when the entry is empty or failed both parses
(`ServerViewer.apply_filters` treats an unparsable bound as absent). -/
structure FilterSpec where
  component : String
  level : String
  file : String
  search : String
  start_time : Option TimeBound
  end_time : Option TimeBound

/-- The searchable text of a record:
`(log['full_message'] + ' ' + json.dumps(log['raw'])).lower()`. -/
def searchableText (log : LogRecord) : String :=
  pyLower (log.full_message ++ " " ++ dumps log.raw)

/-- The per-record test of `ServerViewer.apply_filters`: the `continue`
chain in source order — component, level, file, the two time checks,
then the free-text search.  A time comparison between a naive and an
aware datetime raises `TypeError`; checks before the raising one can
still drop the record first. -/
def passesFilterE (fs : FilterSpec) (log : LogRecord) : Except PyError Bool :=
  if !(fs.component == "All" || log.component == fs.component) then .ok false
  else if !(fs.level == "All" || log.level == fs.level) then .ok false
  else if !(fs.file == "All" || log.file_name == fs.file) then .ok false
  else
    let afterTime : Except PyError Bool :=
      .ok (fs.search == "" || strContainsB (searchableText log) (pyLower fs.search))
    let endCheck : Except PyError Bool :=
      match fs.end_time with
      | none => afterTime
      | some en =>
        match tsGtBoundE log.parsed_timestamp en with
        | .error e => .error e
        | .ok true => .ok false
        | .ok false => afterTime
    match fs.start_time with
    | none => endCheck
    | some st =>
      match tsLtBoundE log.parsed_timestamp st with
      | .error e => .error e
      | .ok true => .ok false
      | .ok false => endCheck

/-- `ServerViewer.apply_filters`: one linear scan keeping collection
order; the first record whose time comparison raises aborts the whole
scan with the `TypeError` (the loop has no enclosing `try`). -/
def apply_filters (logs : List LogRecord) (fs : FilterSpec) :
    Except PyError (List LogRecord) :=
  match logs with
  | [] => .ok []
  | log :: rest =>
    match passesFilterE fs log with
    | .error e => .error e
    | .ok b =>
      match apply_filters rest fs with
      | .error e => .error e
      | .ok l => .ok (if b then log :: l else l)

/-! ## Correlation engine -/

/-- One result of `ComparisonEngine.find_similar_messages`. -/
structure SimilarityCorrelation where
  log1 : LogRecord
  log2 : LogRecord
  similarity : ℚ
  time_diff_minutes : ℚ

/-- Elapsed minutes between two instants:
`abs((t1 - t2).total_seconds()) / 60` with instants in microseconds. -/
def timeDiffMinutes (n1 n2 : Nat) : ℚ :=
  |(n1 : ℚ) - (n2 : ℚ)| / 60000000

/-- The level filter of both correlation algorithms:
`log['level'].lower() in ['error', 'warn', 'warning']`. -/
def isImportantLevel (log : LogRecord) : Bool :=
  pyLower log.level ∈ ["error", "warn", "warning"]

/-- `ComparisonEngine.find_similar_messages`: restrict both sides to
error/warning records, skip sentinel timestamps, keep pairs within the
time window whose lower-cased messages reach the similarity threshold,
and sort the results by similarity, descending (stably, as Python's
`sorted(..., reverse=True)` does). -/
def find_similar_messages (logs1 logs2 : List LogRecord)
    (similarity_threshold time_window_minutes : ℚ) : List SimilarityCorrelation :=
  let important_logs1 := logs1.filter isImportantLevel
  let important_logs2 := logs2.filter isImportantLevel
  let correlations := important_logs1.flatMap (fun log1 =>
    match log1.parsed_timestamp with
    | .sentinel => []
    | .real n1 =>
      important_logs2.filterMap (fun log2 =>
        match log2.parsed_timestamp with
        | .sentinel => none
        | .real n2 =>
          let time_diff := timeDiffMinutes n1 n2
          if time_window_minutes < time_diff then none
          else
            let similarity :=
              calculate_similarity (pyLower log1.full_message) (pyLower log2.full_message)
            if similarity_threshold ≤ similarity then
              some ⟨log1, log2, similarity, time_diff⟩
            else none))
  correlations.insertionSort (fun x y => y.similarity ≤ x.similarity)

/-- One result of `ComparisonEngine.find_timeline_correlations`. -/
structure TimelineCorrelation where
  time_bucket : Nat
  server1_events : Nat
  server2_events : Nat
  server1_errors : Nat
  server2_errors : Nat
  time_offset_minutes : Int
deriving DecidableEq, Repr

/-- `get_time_bucket` with the default 1-minute bucket size: zero the
seconds and microseconds (`timestamp.minute % 1` is always `0`). -/
def bucketKey (micros : Nat) : Nat :=
  micros - micros % 60000000

/-- Append a record to the bucket map (`defaultdict(list)`): new keys go
to the end, preserving first-occurrence key order. -/
def addToBuckets (m : List (Nat × List LogRecord)) (key : Nat) (r : LogRecord) :
    List (Nat × List LogRecord) :=
  match m with
  | [] => [(key, [r])]
  | (k, rs) :: rest =>
    if k = key then (k, rs ++ [r]) :: rest else (k, rs) :: addToBuckets rest key r

/-- Group the non-sentinel records of one source into 1-minute buckets. -/
def buildBuckets (logs : List LogRecord) : List (Nat × List LogRecord) :=
  logs.foldl
    (fun m log =>
      match log.parsed_timestamp with
      | .sentinel => m
      | .real n => addToBuckets m (bucketKey n) log) []

/-- Python `int()` on a rational: truncation toward zero (`range` in
`find_timeline_correlations` receives `int(time_window_minutes)`). -/
def pyInt (q : ℚ) : Int :=
  q.num.tdiv q.den

/-- The integers of Python's `range(lo, hi)`, ascending. -/
def intRange (lo hi : Int) : List Int :=
  (List.range (hi - lo).toNat).map (fun (k : Nat) => lo + (k : Int))

/-- `ComparisonEngine.find_timeline_correlations`: for every bucket of
source 1 (in first-occurrence order) and every offset in
`range(-int(w), int(w) + 1)`, emit a correlation when the checked bucket
exists in source 2 and both buckets contain an error-level record. -/
def find_timeline_correlations (logs1 logs2 : List LogRecord)
    (time_window_minutes : ℚ) : List TimelineCorrelation :=
  let time_window_int := pyInt time_window_minutes
  let buckets1 := buildBuckets logs1
  let buckets2 := buildBuckets logs2
  buckets1.flatMap (fun b1 =>
    (intRange (-time_window_int) (time_window_int + 1)).filterMap (fun minutes_offset =>
      let check_bucket : Int := (b1.1 : Int) + minutes_offset * 60000000
      match buckets2.find? (fun b2 => decide ((b2.1 : Int) = check_bucket)) with
      | none => none
      | some b2 =>
        let bucket1_errors := b1.2.filter (fun log => pyLower log.level == "error")
        let bucket2_errors := b2.2.filter (fun log => pyLower log.level == "error")
        if bucket1_errors.isEmpty || bucket2_errors.isEmpty then none
        else some ⟨b1.1, b1.2.length, b2.2.length,
                   bucket1_errors.length, bucket2_errors.length, minutes_offset⟩))

/-! ## Health analysis (`ServerViewer.run_health_analysis`) -/

/-- The memory samples: `metrics['beat']['memstats'].get('memory_alloc', 0)`
converted to MB when positive.  Documents whose nested values are not
JSON objects/numbers are skipped (the Python code would perform
membership tests or comparisons on such values). -/
def memoryValues (logs : List LogRecord) : List ℚ :=
  logs.filterMap (fun log => do
    let mon ← objGet log.raw "monitoring"
    let mets ← objGet mon "metrics"
    let beat ← objGet mets "beat"
    let mem ← objGet beat "memstats"
    match (objGet mem "memory_alloc").getD (Json.num 0) with
    | Json.num q => if 0 < q then some (q / 1024 / 1024) else none
    | _ => none)

/-- The 1-minute system load samples:
`metrics['system']['load'].get('1', 0)` when positive. -/
def loadValues (logs : List LogRecord) : List ℚ :=
  logs.filterMap (fun log => do
    let mon ← objGet log.raw "monitoring"
    let mets ← objGet mon "metrics"
    let sys ← objGet mets "system"
    let load ← objGet sys "load"
    match (objGet load "1").getD (Json.num 0) with
    | Json.num q => if 0 < q then some q else none
    | _ => none)

/-- The goroutine counts:
`metrics['beat']['runtime'].get('goroutines', 0)` when positive. -/
def goroutineCounts (logs : List LogRecord) : List ℚ :=
  logs.filterMap (fun log => do
    let mon ← objGet log.raw "monitoring"
    let mets ← objGet mon "metrics"
    let beat ← objGet mets "beat"
    let rt ← objGet beat "runtime"
    match (objGet rt "goroutines").getD (Json.num 0) with
    | Json.num q => if 0 < q then some q else none
    | _ => none)

/-- The event error rates: for records with
`metrics['libbeat']['output']['events']` and `total > 0`, the value
`max(0, (total - acked) / total * 100)`. -/
def errorRates (logs : List LogRecord) : List ℚ :=
  logs.filterMap (fun log => do
    let mon ← objGet log.raw "monitoring"
    let mets ← objGet mon "metrics"
    let lib ← objGet mets "libbeat"
    let out ← objGet lib "output"
    let events ← objGet out "events"
    match (objGet events "acked").getD (Json.num 0),
          (objGet events "total").getD (Json.num 0) with
    | Json.num acked, Json.num total =>
      if 0 < total then some (max 0 ((total - acked) / total * 100)) else none
    | _, _ => none)

/-- `statistics.mean` (call sites guard against empty sample lists). -/
def mean (vs : List ℚ) : ℚ :=
  vs.sum / vs.length

/-- The issue list assembled at the end of `run_health_analysis`
("Health Assessment"), in the order the code appends them. -/
def healthIssues (logs : List LogRecord) : List String :=
  (if memoryValues logs ≠ [] ∧ 500 < mean (memoryValues logs)
    then ["High memory usage"] else [])
  ++ (if loadValues logs ≠ [] ∧ 2 < mean (loadValues logs)
    then ["High system load"] else [])
  ++ (if errorRates logs ≠ [] ∧ 5 < mean (errorRates logs)
    then ["High event error rate"] else [])
  ++ (if goroutineCounts logs ≠ [] ∧ 200 < mean (goroutineCounts logs)
    then ["High goroutine count"] else [])

/-! ## Component analysis (`ServerViewer.run_component_analysis`) -/

/-- The `processed` dictionary built by `process_log_entry`, with the
dynamic (duck) types the Python code can actually store: `timestamp`,
`level`, `component` and the message fields hold arbitrary decoded JSON
values. -/
structure ProcessedEntry where
  raw : Json
  line_number : Nat
  file_name : String
  server_name : String
  timestamp : Json
  parsed_timestamp : Timestamp
  level : Json
  component : Json
  message : Json
  full_message : Json

/-- Python truthiness of a decoded JSON value. -/
def pyTruthy : Json → Bool
  | .null => false
  | .bool b => b
  | .num q => decide (q ≠ 0)
  | .str s => s ≠ ""
  | .arr elems => !elems.isEmpty
  | .obj fields => !fields.isEmpty

/-- Python `str()` on a decoded JSON value (numeric and container
formatting approximated by the serializer; strings are returned
verbatim, as `str` does). -/
def pyStr : Json → String
  | .str s => s
  | .bool true => "True"
  | .bool false => "False"
  | .null => "None"
  | j => dumps j

/-- `MultiServerLogViewer.process_log_entry` on a decoded JSON mapping
`entry` (association list with the distinct keys `json.loads` produces).
`parseIso` models `datetime.fromisoformat` (microseconds on success,
`none` for a `ValueError`); `fmtLocal` models the
`convert_timezone`/`strftime` display rendering.  The bare `except`
around timestamp parsing also swallows the `AttributeError` of calling
`.replace` on a non-string, so any non-parsing timestamp degrades to the
sentinel.  The only statement that can raise out of the function is the
message preview construction: `len(message)` on a number/bool/None, and
slicing/concatenation on containers longer than 100 elements. -/
def process_log_entry (parseIso : String → Option Nat) (fmtLocal : Nat → String)
    (entry : List (String × Json)) (line_num : Nat) (file_name server_name : String) :
    Except PyError ProcessedEntry :=
  let timestamp_val := pyGet entry "@timestamp" (Json.str "")
  let ts : Json × Timestamp :=
    if pyTruthy timestamp_val then
      match timestamp_val with
      | Json.str s =>
        match parseIso (s.replace "Z" "+00:00") with
        | some n => (Json.str (fmtLocal n), Timestamp.real n)
        | none => (timestamp_val, Timestamp.sentinel)
      | _ => (timestamp_val, Timestamp.sentinel)
    else (Json.str "N/A", Timestamp.sentinel)
  let level := pyGet entry "log.level" (Json.str "unknown")
  let component : Json :=
    match entry.lookup "component" with
    | some compInfo =>
      match compInfo with
      | Json.obj cf => pyGet cf "binary" (pyGet cf "type" (Json.str "unknown"))
      | _ => Json.str (pyStr compInfo)
    | none =>
      match entry.lookup "service.name" with
      | some sv => sv
      | none => Json.str "unknown"
  match pyGet entry "message" (Json.str "") with
  | Json.str s =>
    let msg := if 100 < s.length then s.take 100 ++ "..." else s
    .ok ⟨Json.obj entry, line_num, file_name, server_name, ts.1, ts.2,
         level, component, Json.str msg, Json.str s⟩
  | Json.arr elems =>
    if 100 < elems.length then .error .typeError
    else .ok ⟨Json.obj entry, line_num, file_name, server_name, ts.1, ts.2,
              level, component, Json.arr elems, Json.arr elems⟩
  | Json.obj fs =>
    if 100 < fs.length then .error .typeError
    else .ok ⟨Json.obj entry, line_num, file_name, server_name, ts.1, ts.2,
              level, component, Json.obj fs, Json.obj fs⟩
  | _ => .error .typeError

/-- Whether the `@timestamp` field will produce a real parsed instant: it
must be present, a truthy string, and parse after the `Z` substitution. -/
def timestampParses (parseIso : String → Option Nat)
    (entry : List (String × Json)) : Bool :=
  match pyGet entry "@timestamp" (Json.str "") with
  | Json.str s => s ≠ "" && (parseIso (s.replace "Z" "+00:00")).isSome
  | _ => false

/-- The non-time constraints of `ServerViewer.apply_filters` on their
own: component, level, file and free-text search. -/
def otherFiltersPass (fs : FilterSpec) (log : LogRecord) : Bool :=
  (fs.component == "All" || log.component == fs.component)
  && (fs.level == "All" || log.level == fs.level)
  && (fs.file == "All" || log.file_name == fs.file)
  && (fs.search == "" || strContainsB (searchableText log) (pyLower fs.search))

/-- The dropdown checks that run before the time comparisons: component,
level and file (the free-text search runs after them). -/
def preTimeFiltersPass (fs : FilterSpec) (log : LogRecord) : Bool :=
  (fs.component == "All" || log.component == fs.component)
  && (fs.level == "All" || log.level == fs.level)
  && (fs.file == "All" || log.file_name == fs.file)

/-! ## Order helper lemmas -/

theorem tsLeB_trans (a b c : Timestamp) (hab : tsLeB a b = true) (hbc : tsLeB b c = true) :
    tsLeB a c = true := by
  cases a <;> cases b <;> cases c <;> simp_all [tsLeB] <;> omega

theorem tsLeB_total (a b : Timestamp) : (tsLeB a b || tsLeB b a) = true := by
  cases a <;> cases b <;> simp [tsLeB] <;> omega

theorem recLeB_trans (a b c : LogRecord) (hab : recLeB a b = true) (hbc : recLeB b c = true) :
    recLeB a c = true :=
  tsLeB_trans _ _ _ hab hbc

theorem recLeB_total (a b : LogRecord) : (recLeB a b || recLeB b a) = true :=
  tsLeB_total _ _

/-! ## C1: a naive/aware mix makes the re-sort raise, leaving the
collection unsorted -/

/-- On the comparable path the sort relation is total and transitive, so
the stable sort produces `Pairwise`-sorted output. -/
theorem sorted_insertionSort_logs (l : List LogRecord) :
    List.Pairwise (fun r s => recLeB r s = true)
      (l.insertionSort (fun r s => recLeB r s = true)) := by
  haveI : IsTotal LogRecord (fun r s => recLeB r s = true) :=
    ⟨fun a b => by simpa [Bool.or_eq_true] using recLeB_total a b⟩
  haveI : IsTrans LogRecord (fun r s => recLeB r s = true) :=
    ⟨fun a b c => recLeB_trans a b c⟩
  exact List.sorted_insertionSort _ l

/-- A record as produced from a line with a real, Z-suffixed
`@timestamp` (a timezone-aware parsed datetime). -/
def c1RealRecord : LogRecord :=
  ⟨Json.null, 1, "a.log", "Server A", "disp", Timestamp.real 60000000,
   "info", "c", "m", "m"⟩

/-- A record as produced from a line lacking `@timestamp`: the naive
sentinel `datetime.min`. -/
def c1SentinelRecord : LogRecord :=
  ⟨Json.null, 2, "a.log", "Server A", "N/A", Timestamp.sentinel,
   "info", "c", "m", "m"⟩

/-- C1 (code bug): the spec's invariant — records sorted ascending by
timestamp with sentinels first after every bulk load — is not maintained
by the program.  Loading a file whose first line has a real timestamp
and whose second line lacks one gives sort keys mixing an aware datetime
with the naive `datetime.min`: the very first key comparison of
`logs.sort` raises `TypeError` before any element moves, the bare
`except` of `_load_file_thread` swallows it, and the collection ends
with the real-timestamp record BEFORE the sentinel record. -/
theorem c1_mixed_sort_typeerror :
    sortLogsE [c1RealRecord, c1SentinelRecord] = Except.error PyError.typeError
    ∧ (load_file emptyGroup "a.log"
        [RawLine.doc c1RealRecord, RawLine.doc c1SentinelRecord]).logs
        = [c1RealRecord, c1SentinelRecord]
    ∧ ¬ List.Pairwise (fun r s => s.parsed_timestamp = Timestamp.sentinel →
          r.parsed_timestamp = Timestamp.sentinel)
        [c1RealRecord, c1SentinelRecord] := by
  refine ⟨rfl, rfl, ?_⟩
  intro hpw
  have h := (List.pairwise_cons.mp hpw).1 c1SentinelRecord (by simp) rfl
  exact absurd h (by simp [c1RealRecord])

/-! ## C3: sentinel timestamps and the time-range filter -/

/-- C3 counterexample: the claim says a sentinel-timestamp record never
passes a time-range constraint, but with only an end bound parsed by the
naive `strptime` fallback the code's check
`parsed_timestamp > end_time` is `False` for the naive sentinel
`datetime.min`, so the record passes. -/
theorem c3_counterexample :
    passesFilterE
      ⟨"All", "All", "All", "", none, some (TimeBound.naive 1000000)⟩
      ⟨Json.null, 1, "a.log", "Server A", "N/A", Timestamp.sentinel,
       "error", "unknown", "m", "m"⟩ = Except.ok true := rfl

/-- C3 (amended): for a sentinel-timestamp record, (1) a naive start
bound later than `datetime.min` always excludes it; (2) an aware start
bound makes the filter raise `TypeError` instead — unless the component,
level or file check already dropped the record; (3) with no time bounds
the record passes exactly when the non-time constraints hold; (4) a
naive end bound alone also lets it pass exactly when the non-time
constraints hold; (5) an aware end bound alone raises instead of letting
it pass, again unless an earlier dropdown check dropped the record. -/
theorem c3_sentinel_time_filter (fs : FilterSpec) (log : LogRecord)
    (hts : log.parsed_timestamp = Timestamp.sentinel) :
    ((∃ t, fs.start_time = some (TimeBound.naive t) ∧ 0 < t) →
        passesFilterE fs log = Except.ok false)
    ∧ ((∃ t, fs.start_time = some (TimeBound.aware t)) →
        passesFilterE fs log =
          (if preTimeFiltersPass fs log then Except.error PyError.typeError
           else Except.ok false))
    ∧ (fs.start_time = none → fs.end_time = none →
        passesFilterE fs log = Except.ok (otherFiltersPass fs log))
    ∧ ((∃ t, fs.start_time = none ∧ fs.end_time = some (TimeBound.naive t)) →
        passesFilterE fs log = Except.ok (otherFiltersPass fs log))
    ∧ ((∃ t, fs.start_time = none ∧ fs.end_time = some (TimeBound.aware t)) →
        passesFilterE fs log =
          (if preTimeFiltersPass fs log then Except.error PyError.typeError
           else Except.ok false)) := by
  refine ⟨?_, ?_, ?_, ?_, ?_⟩
  · rintro ⟨t, hst, ht⟩
    have hd : decide (0 < t) = true := decide_eq_true ht
    simp only [passesFilterE, hst, hts, tsLtBoundE, hd]
    split_ifs <;> rfl
  · rintro ⟨t, hst⟩
    simp only [passesFilterE, hst, hts, tsLtBoundE, preTimeFiltersPass]
    by_cases h1 : (fs.component == "All" || log.component == fs.component) = true <;>
      by_cases h2 : (fs.level == "All" || log.level == fs.level) = true <;>
      by_cases h3 : (fs.file == "All" || log.file_name == fs.file) = true <;>
      simp [h1, h2, h3]
  · intro hst hen
    simp only [passesFilterE, hst, hen, hts, otherFiltersPass]
    cases h1 : (fs.component == "All" || log.component == fs.component) <;>
      cases h2 : (fs.level == "All" || log.level == fs.level) <;>
      cases h3 : (fs.file == "All" || log.file_name == fs.file) <;> simp
  · rintro ⟨t, hst, hen⟩
    simp only [passesFilterE, hst, hen, hts, tsGtBoundE, otherFiltersPass]
    cases h1 : (fs.component == "All" || log.component == fs.component) <;>
      cases h2 : (fs.level == "All" || log.level == fs.level) <;>
      cases h3 : (fs.file == "All" || log.file_name == fs.file) <;> simp
  · rintro ⟨t, hst, hen⟩
    simp only [passesFilterE, hst, hen, hts, tsGtBoundE, preTimeFiltersPass]
    by_cases h1 : (fs.component == "All" || log.component == fs.component) = true <;>
      by_cases h2 : (fs.level == "All" || log.level == fs.level) = true <;>
      by_cases h3 : (fs.file == "All" || log.file_name == fs.file) = true <;>
      simp [h1, h2, h3]

/-- Witness for C3 at a concrete sentinel record: a naive start bound
excludes it, and an aware end bound raises `TypeError` instead of
letting it pass. -/
theorem c3_sentinel_time_filter_witness :
    passesFilterE
      ⟨"All", "All", "All", "", some (TimeBound.naive 1000000), none⟩
      ⟨Json.null, 1, "a.log", "Server A", "N/A", Timestamp.sentinel,
       "error", "unknown", "m", "m"⟩ = Except.ok false
    ∧ passesFilterE
      ⟨"All", "All", "All", "", none, some (TimeBound.aware 1000000)⟩
      ⟨Json.null, 1, "a.log", "Server A", "N/A", Timestamp.sentinel,
       "error", "unknown", "m", "m"⟩ = Except.error PyError.typeError := by
  constructor
  · exact (c3_sentinel_time_filter
      ⟨"All", "All", "All", "", some (TimeBound.naive 1000000), none⟩
      ⟨Json.null, 1, "a.log", "Server A", "N/A", Timestamp.sentinel,
       "error", "unknown", "m", "m"⟩ rfl).1 ⟨1000000, rfl, by decide⟩
  · have h := ((c3_sentinel_time_filter
      ⟨"All", "All", "All", "", none, some (TimeBound.aware 1000000)⟩
      ⟨Json.null, 1, "a.log", "Server A", "N/A", Timestamp.sentinel,
       "error", "unknown", "m", "m"⟩ rfl).2.2.2.2) ⟨1000000, rfl, rfl⟩
    rw [h, if_pos (by decide)]

/-! ## C5: duplicate file names are rejected without mutation -/

/-- C5: an append whose file name is already in `loaded_files` signals
the duplicate-file warning and leaves logs, components, levels and
loaded files untouched. -/
theorem c5_duplicate_append (g : ServerGroup) (file_name : String) (lines : List RawLine)
    (h : file_name ∈ g.loaded_files) :
    (add_file g file_name lines).2 = true
    ∧ (add_file g file_name lines).1.logs = g.logs
    ∧ (add_file g file_name lines).1.components = g.components
    ∧ (add_file g file_name lines).1.log_levels = g.log_levels
    ∧ (add_file g file_name lines).1.loaded_files = g.loaded_files := by
  simp [add_file, h]

/-- Witness for C5 at a concrete group already holding `a.log`. -/
theorem c5_duplicate_append_witness :
    (add_file ⟨[], [], [], ["a.log"]⟩ "a.log" []).2 = true
    ∧ (add_file ⟨[], [], [], ["a.log"]⟩ "a.log" []).1.logs = ([] : List LogRecord)
    ∧ (add_file ⟨[], [], [], ["a.log"]⟩ "a.log" []).1.components = ([] : List String)
    ∧ (add_file ⟨[], [], [], ["a.log"]⟩ "a.log" []).1.log_levels = ([] : List String)
    ∧ (add_file ⟨[], [], [], ["a.log"]⟩ "a.log" []).1.loaded_files = ["a.log"] :=
  c5_duplicate_append ⟨[], [], [], ["a.log"]⟩ "a.log" [] (by decide)

/-! ## C10: the file name is recorded even when every line is malformed -/

theorem insertNew_length_of_not_mem (l : List String) (s : String) (h : s ∉ l) :
    (insertNew l s).length = l.length + 1 := by
  simp [insertNew, h]

theorem mem_insertNew_self (l : List String) (s : String) : s ∈ insertNew l s := by
  by_cases h : s ∈ l <;> simp [insertNew, h]

theorem foldl_loadStep_malformed (lines : List RawLine) (g : ServerGroup)
    (h : ∀ l ∈ lines, l = RawLine.malformed) :
    lines.foldl loadStep g = g := by
  induction lines generalizing g with
  | nil => rfl
  | cons l ls ih =>
    have hl := h l (List.mem_cons_self l ls)
    subst hl
    exact ih g (fun x hx => h x (List.mem_cons_of_mem _ hx))

/-- C10: appending a file whose lines are all malformed JSON adds no
records (the resulting log list is a permutation of the old one — only
the final re-sort ran — and `total_logs` is unchanged), yet the file
name was recorded before parsing: `files` grows by one and a second
append of the same name is rejected as a duplicate without mutation. -/
theorem c10_malformed_append (g : ServerGroup) (file_name : String) (lines : List RawLine)
    (hfresh : file_name ∉ g.loaded_files)
    (hmal : ∀ l ∈ lines, l = RawLine.malformed) :
    ((add_file g file_name lines).1.logs).Perm g.logs
    ∧ (get_stats (add_file g file_name lines).1).total_logs = (get_stats g).total_logs
    ∧ (get_stats (add_file g file_name lines).1).files = (get_stats g).files + 1
    ∧ (∀ lines2, add_file (add_file g file_name lines).1 file_name lines2
        = ((add_file g file_name lines).1, true)) := by
  have hadd : add_file g file_name lines = (load_file_thread g file_name lines, false) := by
    simp [add_file, hfresh]
  have hthread : ∃ logs2, logs2.Perm g.logs ∧
      load_file_thread g file_name lines =
        { g with loaded_files := insertNew g.loaded_files file_name,
                 logs := logs2 } := by
    rw [load_file_thread, foldl_loadStep_malformed lines _ hmal]
    by_cases hmix : mixedTs g.logs = true
    · refine ⟨g.logs, List.Perm.refl _, ?_⟩
      simp [sortLogsE, hmix]
    · refine ⟨g.logs.insertionSort (fun r s => recLeB r s = true),
        List.perm_insertionSort _ g.logs, ?_⟩
      simp [sortLogsE, hmix]
  obtain ⟨logs2, hperm, hth⟩ := hthread
  rw [hadd, hth]
  refine ⟨hperm, ?_, ?_, ?_⟩
  · simp [get_stats, hperm.length_eq]
  · simp [get_stats, insertNew_length_of_not_mem _ _ hfresh]
  · intro lines2
    simp [add_file, mem_insertNew_self]

/-- Witness for C10: one malformed line into a fresh group. -/
theorem c10_malformed_append_witness :
    ((add_file emptyGroup "a.log" [RawLine.malformed]).1.logs).Perm emptyGroup.logs
    ∧ (get_stats (add_file emptyGroup "a.log" [RawLine.malformed]).1).total_logs
        = (get_stats emptyGroup).total_logs
    ∧ (get_stats (add_file emptyGroup "a.log" [RawLine.malformed]).1).files
        = (get_stats emptyGroup).files + 1
    ∧ (∀ lines2, add_file (add_file emptyGroup "a.log" [RawLine.malformed]).1 "a.log" lines2
        = ((add_file emptyGroup "a.log" [RawLine.malformed]).1, true)) :=
  c10_malformed_append emptyGroup "a.log" [RawLine.malformed]
    (by simp [emptyGroup])
    (by intro l hl; rcases List.mem_singleton.mp hl with rfl; rfl)

/-! ## C8: the memory threshold is strict -/

/-- A record carrying one memory sample of `mb` megabytes in the
monitoring payload. -/
def memDemoRecord (mb : ℚ) : LogRecord where
  raw := Json.obj [("monitoring", Json.obj [("metrics", Json.obj
    [("beat", Json.obj [("memstats", Json.obj
      [("memory_alloc", Json.num (mb * 1024 * 1024))])])])])]
  line_number := 1
  file_name := "a.log"
  server_name := "Server A"
  timestamp := "N/A"
  parsed_timestamp := Timestamp.sentinel
  level := "info"
  component := "beat"
  message := ""
  full_message := ""

/-- C8 counterexample: memory samples of 400 MB and 600 MB have mean
exactly 500, and the "High memory usage" condition is NOT flagged — the
code's comparison `statistics.mean(memory_values) > 500` is strict,
contradicting the claim that this input flags the condition. -/
theorem c8_counterexample :
    "High memory usage" ∉ healthIssues [memDemoRecord 400, memDemoRecord 600]
    ∧ mean (memoryValues [memDemoRecord 400, memDemoRecord 600]) = 500 := by
  have hmem : memoryValues [memDemoRecord 400, memDemoRecord 600] = [400, 600] := by
    simp [memoryValues, memDemoRecord, objGet, pyGet, List.lookup, List.filterMap]
  have hload : loadValues [memDemoRecord 400, memDemoRecord 600] = [] := by
    simp [loadValues, memDemoRecord, objGet, pyGet, List.lookup, List.filterMap]
  have hrate : errorRates [memDemoRecord 400, memDemoRecord 600] = [] := by
    simp [errorRates, memDemoRecord, objGet, pyGet, List.lookup, List.filterMap]
  have hgor : goroutineCounts [memDemoRecord 400, memDemoRecord 600] = [] := by
    simp [goroutineCounts, memDemoRecord, objGet, pyGet, List.lookup, List.filterMap]
  have hmean : mean ([400, 600] : List ℚ) = 500 := by
    norm_num [mean]
  refine ⟨?_, by rw [hmem, hmean]⟩
  simp [healthIssues, hmem, hload, hrate, hgor, hmean]

/-- C8 (amended): health analysis flags "High memory usage" exactly when
there is at least one memory sample and the sample mean strictly exceeds
500 MB; mean exactly 500 does not flag. -/
theorem c8_memory_threshold (logs : List LogRecord) :
    "High memory usage" ∈ healthIssues logs ↔
      memoryValues logs ≠ [] ∧ 500 < mean (memoryValues logs) := by
  rw [healthIssues]
  split_ifs with h1 h2 h3 h4 <;> simp_all

/-! ## C9: status changes are sorted by (status, timestamp), not by time -/

/-- The message-field shapes on which the preview construction of
`process_log_entry` does not raise: a string, or a container of at most
100 elements (Python can take `len` and slice those; on a longer
container the `+ '...'` concatenation or the slice raises `TypeError`,
and on a number/bool/None `len` itself raises). -/
def messageFieldOk (entry : List (String × Json)) : Bool :=
  match pyGet entry "message" (Json.str "") with
  | .str _ => true
  | .arr elems => elems.length ≤ 100
  | .obj fields => fields.length ≤ 100
  | _ => false

/-- C7 counterexample: a decoded mapping whose `message` field is the
number `5` makes the normalizer raise (`len(message)` on an `int` is a
`TypeError` outside every `try`), so normalization does not always
return a record. -/
theorem c7_counterexample :
    process_log_entry (fun _ => none) (fun _ => "") [("message", Json.num 5)]
      1 "a.log" "Server A" = Except.error PyError.typeError := rfl

/-- C7 (amended): on a decoded mapping whose `message` field (when
present) is a string or a container of at most 100 elements,
normalization returns a record and never raises; the parsed timestamp is
the sentinel exactly when `@timestamp` is missing, non-string, empty, or
fails to parse, and the level field degrades to its `.get` default
rather than failing. -/
theorem c7_normalizer_total (parseIso : String → Option Nat) (fmtLocal : Nat → String)
    (entry : List (String × Json)) (line_num : Nat) (file_name server_name : String)
    (hmsg : messageFieldOk entry = true) :
    ∃ r, process_log_entry parseIso fmtLocal entry line_num file_name server_name
        = Except.ok r
      ∧ (r.parsed_timestamp = Timestamp.sentinel ↔ timestampParses parseIso entry = false)
      ∧ r.level = pyGet entry "log.level" (Json.str "unknown") := by
  have hts : ((if pyTruthy (pyGet entry "@timestamp" (Json.str "")) then
        match pyGet entry "@timestamp" (Json.str "") with
        | Json.str s =>
          match parseIso (s.replace "Z" "+00:00") with
          | some n => (Json.str (fmtLocal n), Timestamp.real n)
          | none => (pyGet entry "@timestamp" (Json.str ""), Timestamp.sentinel)
        | _ => (pyGet entry "@timestamp" (Json.str ""), Timestamp.sentinel)
      else ((Json.str "N/A", Timestamp.sentinel) : Json × Timestamp)).2 = Timestamp.sentinel
      ↔ timestampParses parseIso entry = false) := by
    rw [timestampParses]
    rcases htv : pyGet entry "@timestamp" (Json.str "") with _ | b | q | s | elems | fields
    case str =>
      by_cases hs : s = ""
      · subst hs; simp [pyTruthy]
      · rcases hp : parseIso (s.replace "Z" "+00:00") with _ | n <;>
          simp [pyTruthy, hs, hp]
    all_goals simp [pyTruthy, apply_ite Prod.snd]
  rcases hm : pyGet entry "message" (Json.str "") with _ | b | q | s | elems | fields
  · rw [messageFieldOk, hm] at hmsg; exact absurd hmsg (by simp)
  · rw [messageFieldOk, hm] at hmsg; exact absurd hmsg (by simp)
  · rw [messageFieldOk, hm] at hmsg; exact absurd hmsg (by simp)
  · simp only [process_log_entry, hm]
    exact ⟨_, rfl, hts, rfl⟩
  · rw [messageFieldOk, hm] at hmsg
    have hlen : ¬ (100 < elems.length) := by simpa using hmsg
    simp only [process_log_entry, hm, if_neg hlen]
    exact ⟨_, rfl, hts, rfl⟩
  · rw [messageFieldOk, hm] at hmsg
    have hlen : ¬ (100 < fields.length) := by simpa using hmsg
    simp only [process_log_entry, hm, if_neg hlen]
    exact ⟨_, rfl, hts, rfl⟩

/-- Witness for C7's amended statement: a concrete entry with a parsing
timestamp and a string message normalizes successfully. -/
theorem c7_normalizer_total_witness :
    (process_log_entry (fun _ => some 42) (fun _ => "disp")
        [("@timestamp", Json.str "T"), ("message", Json.str "hello")]
        7 "a.log" "Server A").isOk = true := by
  obtain ⟨r, hr, -, -⟩ := c7_normalizer_total (fun _ => some 42) (fun _ => "disp")
    [("@timestamp", Json.str "T"), ("message", Json.str "hello")] 7 "a.log" "Server A" rfl
  rw [hr]
  rfl

/-- C6: every returned similarity correlation pairs one record from each
input; both records have error/warn/warning levels (case-insensitively)
and real (non-sentinel) timestamps at most `windowMinutes` apart; the
similarity is the ratio of the lower-cased full messages and is at least
the threshold (inclusive); and the result list is sorted descending by
similarity. -/
theorem c6_similar_messages (logs1 logs2 : List LogRecord) (thr w : ℚ) :
    (∀ c ∈ find_similar_messages logs1 logs2 thr w,
      c.log1 ∈ logs1 ∧ c.log2 ∈ logs2
      ∧ pyLower c.log1.level ∈ ["error", "warn", "warning"]
      ∧ pyLower c.log2.level ∈ ["error", "warn", "warning"]
      ∧ thr ≤ c.similarity
      ∧ c.similarity = calculate_similarity (pyLower c.log1.full_message)
          (pyLower c.log2.full_message)
      ∧ ∃ n1 n2, c.log1.parsed_timestamp = Timestamp.real n1
          ∧ c.log2.parsed_timestamp = Timestamp.real n2
          ∧ c.time_diff_minutes = timeDiffMinutes n1 n2
          ∧ timeDiffMinutes n1 n2 ≤ w)
    ∧ List.Pairwise (fun x y => y.similarity ≤ x.similarity)
        (find_similar_messages logs1 logs2 thr w) := by
  constructor
  · intro c hc
    simp only [find_similar_messages] at hc
    have hc2 := (List.perm_insertionSort _ _).mem_iff.mp hc
    rcases List.mem_flatMap.mp hc2 with ⟨l1, hl1, hcin⟩
    rcases List.mem_filter.mp hl1 with ⟨hl1m, hl1lev⟩
    rcases ht1 : l1.parsed_timestamp with _ | n1
    · rw [ht1] at hcin; exact absurd hcin (List.not_mem_nil c)
    · rw [ht1] at hcin
      rcases List.mem_filterMap.mp hcin with ⟨l2, hl2, hf⟩
      rcases List.mem_filter.mp hl2 with ⟨hl2m, hl2lev⟩
      rcases ht2 : l2.parsed_timestamp with _ | n2
      · simp only [ht2] at hf
        exact absurd hf (by simp)
      · simp only [ht2] at hf
        by_cases h1 : w < timeDiffMinutes n1 n2
        · rw [if_pos h1] at hf; exact absurd hf (by simp)
        · rw [if_neg h1] at hf
          by_cases h2 : thr ≤ calculate_similarity (pyLower l1.full_message)
              (pyLower l2.full_message)
          · rw [if_pos h2, Option.some.injEq] at hf
            subst hf
            refine ⟨hl1m, hl2m, ?_, ?_, h2, rfl, n1, n2, ht1, ht2, rfl, not_lt.mp h1⟩
            · simpa [isImportantLevel] using hl1lev
            · simpa [isImportantLevel] using hl2lev
          · rw [if_neg h2] at hf; exact absurd hf (by simp)
  · haveI : IsTotal SimilarityCorrelation (fun x y => y.similarity ≤ x.similarity) :=
      ⟨fun a b => le_total _ _⟩
    haveI : IsTrans SimilarityCorrelation (fun x y => y.similarity ≤ x.similarity) :=
      ⟨fun a b c h1 h2 => le_trans h2 h1⟩
    simp only [find_similar_messages]
    exact List.sorted_insertionSort _ _

/-- Evaluation helper: `find_similar_messages` on two singleton inputs
that satisfy all the checks returns exactly one correlation. -/
theorem find_similar_singleton (l1 l2 : LogRecord) (thr w : ℚ) (n1 n2 : Nat)
    (h1 : isImportantLevel l1 = true) (h2 : isImportantLevel l2 = true)
    (ht1 : l1.parsed_timestamp = Timestamp.real n1)
    (ht2 : l2.parsed_timestamp = Timestamp.real n2)
    (hw : ¬ w < timeDiffMinutes n1 n2)
    (hs : thr ≤ calculate_similarity (pyLower l1.full_message) (pyLower l2.full_message)) :
    find_similar_messages [l1] [l2] thr w
      = [⟨l1, l2, calculate_similarity (pyLower l1.full_message) (pyLower l2.full_message),
          timeDiffMinutes n1 n2⟩] := by
  simp only [find_similar_messages, List.filter, h1, h2, List.flatMap_cons,
    List.flatMap_nil, ht1, ht2, List.filterMap, if_neg hw, if_pos hs]
  simp [List.insertionSort, List.orderedInsert]

/-- A concrete error record ("connection refused" at t = 1 min). -/
def c6Log1 : LogRecord :=
  ⟨Json.null, 1, "a.log", "Server A", "d", Timestamp.real 60000000,
   "error", "agent", "connection refused", "connection refused"⟩

/-- The matching error record on the other source, 60 seconds later. -/
def c6Log2 : LogRecord :=
  ⟨Json.null, 1, "b.log", "Server B", "d", Timestamp.real 120000000,
   "error", "agent", "connection refused", "connection refused"⟩

/-- Two identical "connection refused" errors 60 seconds apart with
threshold 0.9 and window 5 produce exactly one correlation, with
similarity 1 and time difference 1 minute. -/
theorem c6_eval :
    find_similar_messages [c6Log1] [c6Log2] (9/10) 5
      = [⟨c6Log1, c6Log2, 1, 1⟩] := by
  have hsimTot : seqMatcherTotal (pyLower "connection refused").toList
      (pyLower "connection refused").toList = 18 := by decide
  have hlen : (pyLower "connection refused").toList.length = 18 := by decide
  have hsim : calculate_similarity (pyLower "connection refused")
      (pyLower "connection refused") = 1 := by
    simp only [calculate_similarity, smRatio, hsimTot, hlen]
    norm_num
  have htd : timeDiffMinutes 60000000 120000000 = 1 := by
    rw [timeDiffMinutes]
    rw [show ((60000000 : Nat) : ℚ) - ((120000000 : Nat) : ℚ) = -60000000 by norm_num]
    rw [abs_neg, abs_of_nonneg (by norm_num : (0:ℚ) ≤ 60000000)]
    norm_num
  have heq := find_similar_singleton c6Log1 c6Log2 (9/10) 5 60000000 120000000
    (by decide) (by decide) rfl rfl
    (by rw [htd]; norm_num)
    (by show (9/10 : ℚ) ≤ calculate_similarity (pyLower "connection refused")
          (pyLower "connection refused")
        rw [hsim]; norm_num)
  rw [heq]
  show [⟨c6Log1, c6Log2, calculate_similarity (pyLower "connection refused")
    (pyLower "connection refused"), timeDiffMinutes 60000000 120000000⟩]
      = [(⟨c6Log1, c6Log2, 1, 1⟩ : SimilarityCorrelation)]
  rw [hsim, htd]

/-- Witness for C6: the concrete correlation produced by `c6_eval` is in
the result, and the theorem yields its threshold bound and provenance. -/
theorem c6_similar_messages_witness :
    (9 / 10 : ℚ) ≤ (⟨c6Log1, c6Log2, 1, 1⟩ : SimilarityCorrelation).similarity
    ∧ (⟨c6Log1, c6Log2, 1, 1⟩ : SimilarityCorrelation).log1 ∈ [c6Log1] := by
  have hmem : (⟨c6Log1, c6Log2, 1, 1⟩ : SimilarityCorrelation)
      ∈ find_similar_messages [c6Log1] [c6Log2] (9/10) 5 := by
    rw [c6_eval]
    exact List.mem_singleton_self _
  have h := (c6_similar_messages [c6Log1] [c6Log2] (9/10) 5).1 _ hmem
  exact ⟨h.2.2.2.2.1, h.1⟩


/-! ## C4: timeline correlation emission, bucket by bucket -/

/-- The records of `logs` falling in 1-minute bucket `b`. -/
def bucketRecords (logs : List LogRecord) (b : Nat) : List LogRecord :=
  logs.filter (fun r =>
    match r.parsed_timestamp with
    | .real n => decide (bucketKey n = b)
    | .sentinel => false)

theorem find?_addToBuckets (m : List (Nat × List LogRecord)) (key : Nat) (r : LogRecord)
    (b : Nat) :
    (addToBuckets m key r).find? (fun p => decide (p.1 = b)) =
      if b = key then
        match m.find? (fun p => decide (p.1 = key)) with
        | some p => some (p.1, p.2 ++ [r])
        | none => some (key, [r])
      else m.find? (fun p => decide (p.1 = b)) := by
  induction m with
  | nil =>
    by_cases hb : b = key
    · simp [addToBuckets, List.find?, hb]
    · have hb' : ¬ key = b := fun h => hb h.symm
      simp [addToBuckets, List.find?, hb, hb']
  | cons e rest ih =>
    obtain ⟨k, rs⟩ := e
    by_cases hk : k = key <;> by_cases hkb : k = b
    · subst hk; subst hkb
      simp [addToBuckets, List.find?]
    · subst hk
      have hb : ¬ b = k := fun h => hkb h.symm
      simp [addToBuckets, List.find?, hkb, hb]
    · subst hkb
      simp only [addToBuckets, if_neg hk]
      rw [List.find?_cons_of_pos _ (by simp), List.find?_cons_of_pos _ (by simp)]
    · simp only [addToBuckets, if_neg hk]
      rw [List.find?_cons_of_neg _ (by simp [hkb]), ih]
      by_cases hb : b = key
      · rw [if_pos hb, if_pos hb, List.find?_cons_of_neg _ (by simp [hb ▸ hkb])]
      · rw [if_neg hb, if_neg hb, List.find?_cons_of_neg _ (by simp [hkb])]

theorem find?_bucketFoldl (logs : List LogRecord) (m : List (Nat × List LogRecord)) (b : Nat) :
    (logs.foldl
        (fun m log =>
          match log.parsed_timestamp with
          | .sentinel => m
          | .real n => addToBuckets m (bucketKey n) log) m).find?
        (fun p => decide (p.1 = b)) =
      match m.find? (fun p => decide (p.1 = b)), bucketRecords logs b with
      | none, [] => none
      | none, rs => some (b, rs)
      | some p, rs => some (p.1, p.2 ++ rs) := by
  induction logs generalizing m with
  | nil =>
    simp only [List.foldl_nil, bucketRecords, List.filter_nil]
    rcases hf : m.find? (fun p => decide (p.1 = b)) with _ | p <;> simp [hf]
  | cons r logs ih =>
    simp only [List.foldl_cons]
    rcases ht : r.parsed_timestamp with _ | n
    · have hfilt : bucketRecords (r :: logs) b = bucketRecords logs b := by
        simp only [bucketRecords, List.filter_cons, ht]
        simp
      simp only [ht, hfilt]
      exact ih m
    · simp only [ht]
      rw [ih, find?_addToBuckets]
      by_cases hb : b = bucketKey n
      · rw [if_pos hb]
        have hfilt : bucketRecords (r :: logs) b = r :: bucketRecords logs b := by
          simp only [bucketRecords, List.filter_cons, ht, hb]
          simp
        rw [hfilt, ← hb]
        rcases hf : m.find? (fun p => decide (p.1 = b)) with _ | p <;> rw [hf] <;>
          simp [List.append_assoc]
      · rw [if_neg hb]
        have hfilt : bucketRecords (r :: logs) b = bucketRecords logs b := by
          simp only [bucketRecords, List.filter_cons, ht]
          have hnb : ¬ (bucketKey n = b) := fun hh => hb hh.symm
          simp [hnb]
        rw [hfilt]

theorem find?_buildBuckets (logs : List LogRecord) (b : Nat) :
    (buildBuckets logs).find? (fun p => decide (p.1 = b)) =
      match bucketRecords logs b with
      | [] => none
      | rs => some (b, rs) := by
  rw [buildBuckets, find?_bucketFoldl]
  simp only [List.find?_nil]
  cases bucketRecords logs b <;> rfl

theorem pyInt_eq_floor (q : ℚ) (h : 0 ≤ q) : pyInt q = ⌊q⌋ := by
  rw [pyInt, Rat.floor_def, Int.tdiv_eq_ediv (Rat.num_nonneg.mpr h) (by positivity)]

theorem mem_intRange (lo hi o : Int) : o ∈ intRange lo hi ↔ lo ≤ o ∧ o < hi := by
  simp only [intRange, List.mem_map, List.mem_range]
  constructor
  · rintro ⟨k, hk, rfl⟩
    omega
  · rintro ⟨h1, h2⟩
    exact ⟨(o - lo).toNat, by omega, by omega⟩

theorem nodup_intRange (lo hi : Int) : (intRange lo hi).Nodup := by
  rw [intRange]
  exact List.Nodup.map (fun a b h => by omega) (List.nodup_range _)

theorem countP_eq_single {α : Type} [DecidableEq α] (l : List α) (hn : l.Nodup)
    (o : α) (Q : α → Bool) :
    l.countP (fun x => decide (x = o) && Q x) = if o ∈ l ∧ Q o = true then 1 else 0 := by
  induction l with
  | nil => simp
  | cons a l ih =>
    rw [List.countP_cons]
    rcases List.nodup_cons.mp hn with ⟨ha, hl⟩
    rw [ih hl]
    by_cases hao : a = o
    · subst hao
      by_cases hq : Q a = true <;> simp [hq, ha]
    · have hoa : ¬ o = a := fun h => hao h.symm
      by_cases ho : o ∈ l <;> by_cases hq : Q o = true <;>
        simp [hao, ho, hq, hoa]

theorem keys_addToBuckets (m : List (Nat × List LogRecord)) (key : Nat) (r : LogRecord) :
    ∀ q ∈ addToBuckets m key r, q.1 = key ∨ q.1 ∈ m.map Prod.fst := by
  induction m with
  | nil =>
    intro q hq
    rw [addToBuckets] at hq
    rcases List.mem_singleton.mp hq with rfl
    exact Or.inl rfl
  | cons e rest ih =>
    obtain ⟨k, rs⟩ := e
    intro q hq
    rw [addToBuckets] at hq
    by_cases hk : k = key
    · rw [if_pos hk] at hq
      rcases List.mem_cons.mp hq with rfl | hq2
      · exact Or.inr (by simp)
      · exact Or.inr (by simp [List.mem_cons.mpr (Or.inr (List.mem_map_of_mem Prod.fst hq2))])
    · rw [if_neg hk] at hq
      rcases List.mem_cons.mp hq with rfl | hq2
      · exact Or.inr (by simp)
      · rcases ih q hq2 with h | h
        · exact Or.inl h
        · exact Or.inr (by simp [h])

theorem keysNodup_addToBuckets (m : List (Nat × List LogRecord))
    (hn : m.Pairwise (fun p q => p.1 ≠ q.1)) (key : Nat) (r : LogRecord) :
    (addToBuckets m key r).Pairwise (fun p q => p.1 ≠ q.1) := by
  induction m with
  | nil => simp [addToBuckets]
  | cons e rest ih =>
    obtain ⟨k, rs⟩ := e
    rcases List.pairwise_cons.mp hn with ⟨he, hrest⟩
    rw [addToBuckets]
    by_cases hk : k = key
    · rw [if_pos hk]
      exact List.pairwise_cons.mpr ⟨he, hrest⟩
    · rw [if_neg hk]
      refine List.pairwise_cons.mpr ⟨?_, ih hrest⟩
      intro q hq
      rcases keys_addToBuckets rest key r q hq with h | h
      · rw [h]; exact hk
      · rcases List.mem_map.mp h with ⟨y, hy, hqy⟩
        rw [← hqy]
        exact he y hy

theorem keysNodup_buildBuckets (logs : List LogRecord) :
    (buildBuckets logs).Pairwise (fun p q => p.1 ≠ q.1) := by
  rw [buildBuckets]
  have : ∀ (m : List (Nat × List LogRecord)), m.Pairwise (fun p q => p.1 ≠ q.1) →
      (logs.foldl
        (fun m log =>
          match log.parsed_timestamp with
          | .sentinel => m
          | .real n => addToBuckets m (bucketKey n) log) m).Pairwise
        (fun p q => p.1 ≠ q.1) := by
    induction logs with
    | nil => intro m hm; exact hm
    | cons r logs ih =>
      intro m hm
      rw [List.foldl_cons]
      rcases ht : r.parsed_timestamp with _ | n <;> simp only [ht]
      · exact ih m hm
      · exact ih _ (keysNodup_addToBuckets m hm (bucketKey n) r)
  exact this [] (by simp)

theorem sum_countP_buckets (l : List (Nat × List LogRecord))
    (hn : l.Pairwise (fun p q => p.1 ≠ q.1)) (b : Nat)
    (f : Nat × List LogRecord → Nat)
    (hz : ∀ e ∈ l, e.1 ≠ b → f e = 0) :
    (l.map f).sum =
      (match l.find? (fun p => decide (p.1 = b)) with
       | some e => f e
       | none => 0) := by
  induction l with
  | nil => simp
  | cons e l ih =>
    rcases List.pairwise_cons.mp hn with ⟨he, hl⟩
    rw [List.map_cons, List.sum_cons]
    by_cases hb : e.1 = b
    · rw [List.find?_cons_of_pos _ (by simp [hb])]
      have hrest : (l.map f).sum = 0 := by
        apply List.sum_eq_zero
        intro x hx
        rcases List.mem_map.mp hx with ⟨y, hy, rfl⟩
        exact hz y (List.mem_cons_of_mem _ hy) (fun hyb => (he y hy) (by rw [hb, hyb]))
      rw [hrest]
      rfl
    · rw [List.find?_cons_of_neg _ (by simp [hb]), hz e (List.mem_cons_self _ _) hb,
        ih hl (fun x hx => hz x (List.mem_cons_of_mem _ hx))]
      omega

theorem find?_intKey (l : List (Nat × List LogRecord)) (cb : Int) :
    l.find? (fun p => decide ((p.1 : Int) = cb)) =
      if 0 ≤ cb then l.find? (fun p => decide (p.1 = cb.toNat)) else none := by
  induction l with
  | nil => by_cases h : 0 ≤ cb <;> simp [h]
  | cons e l ih =>
    by_cases h : 0 ≤ cb
    · rw [if_pos h]
      by_cases he : (e.1 : Int) = cb
      · rw [List.find?_cons_of_pos _ (by simp [he]),
          List.find?_cons_of_pos _ (by simp only [decide_eq_true_eq]; omega)]
      · rw [List.find?_cons_of_neg _ (by simp [he]),
          List.find?_cons_of_neg _ (by simp only [decide_eq_true_eq]; omega), ih, if_pos h]
    · rw [if_neg h,
        List.find?_cons_of_neg _ (by simp only [decide_eq_true_eq]; omega), ih, if_neg h]

/-- An error-level record falling in 1-minute bucket `b`. -/
def errorInBucket (b : Nat) (r : LogRecord) : Bool :=
  match r.parsed_timestamp with
  | .real n => decide (bucketKey n = b) && (pyLower r.level == "error")
  | .sentinel => false

/-- An error-level record at an integer bucket key (the checked B bucket
`b + offset` can fall below zero). -/
def errorInBucketInt (cb : Int) (r : LogRecord) : Bool :=
  match r.parsed_timestamp with
  | .real n => decide ((bucketKey n : Int) = cb) && (pyLower r.level == "error")
  | .sentinel => false

theorem filter_error_bucketRecords (logs : List LogRecord) (b : Nat) :
    ((bucketRecords logs b).filter (fun log => pyLower log.level == "error") ≠ [])
      ↔ ∃ r ∈ logs, errorInBucket b r = true := by
  constructor
  · intro h
    rcases List.exists_mem_of_ne_nil _ h with ⟨x, hx⟩
    rcases List.mem_filter.mp hx with ⟨hxb, hxe⟩
    rcases List.mem_filter.mp hxb with ⟨hxl, hxbk⟩
    refine ⟨x, hxl, ?_⟩
    rcases ht : x.parsed_timestamp with _ | n
    · rw [ht] at hxbk; exact absurd hxbk (by simp)
    · rw [ht] at hxbk
      rw [errorInBucket, ht]
      simp only [Bool.and_eq_true]
      exact ⟨hxbk, hxe⟩
  · rintro ⟨r, hr, herr⟩
    intro hnil
    rcases ht : r.parsed_timestamp with _ | n
    · rw [errorInBucket, ht] at herr; exact absurd herr (by simp)
    · rw [errorInBucket, ht, Bool.and_eq_true] at herr
      have hrb : r ∈ bucketRecords logs b :=
        List.mem_filter.mpr ⟨hr, by rw [ht]; exact herr.1⟩
      have : r ∈ (bucketRecords logs b).filter (fun log => pyLower log.level == "error") :=
        List.mem_filter.mpr ⟨hrb, herr.2⟩
      rw [hnil] at this
      exact absurd this (List.not_mem_nil r)

theorem errorInBucketInt_iff (cb : Int) (r : LogRecord) :
    errorInBucketInt cb r = true ↔ 0 ≤ cb ∧ errorInBucket cb.toNat r = true := by
  rcases ht : r.parsed_timestamp with _ | n
  · rw [errorInBucketInt, errorInBucket, ht]
    simp
  · rw [errorInBucketInt, errorInBucket, ht]
    simp only [Bool.and_eq_true, decide_eq_true_eq]
    constructor
    · rintro ⟨h1, h2⟩
      refine ⟨by omega, by omega, h2⟩
    · rintro ⟨h0, h1, h2⟩
      exact ⟨by omega, h2⟩

theorem emission_some_iff (logs2 : List LogRecord) (rs : List LogRecord) (cb : Int) :
    ((match (buildBuckets logs2).find? (fun b2 => decide ((b2.1 : Int) = cb)) with
      | none => false
      | some b2 =>
        !((rs.filter (fun log => pyLower log.level == "error")).isEmpty
          || (b2.2.filter (fun log => pyLower log.level == "error")).isEmpty)) = true)
    ↔ (rs.filter (fun log => pyLower log.level == "error") ≠ []
        ∧ ∃ r ∈ logs2, errorInBucketInt cb r = true) := by
  have hBiff : (∃ r ∈ logs2, errorInBucketInt cb r = true)
      ↔ (0 ≤ cb ∧ ((bucketRecords logs2 cb.toNat).filter
          (fun log => pyLower log.level == "error") ≠ [])) := by
    constructor
    · rintro ⟨r, hr, hre⟩
      rcases (errorInBucketInt_iff cb r).mp hre with ⟨h0, he⟩
      exact ⟨h0, (filter_error_bucketRecords logs2 cb.toNat).mpr ⟨r, hr, he⟩⟩
    · rintro ⟨h0, hne⟩
      rcases (filter_error_bucketRecords logs2 cb.toNat).mp hne with ⟨r, hr, he⟩
      exact ⟨r, hr, (errorInBucketInt_iff cb r).mpr ⟨h0, he⟩⟩
  rw [find?_intKey]
  by_cases hcb : 0 ≤ cb
  · rw [if_pos hcb, find?_buildBuckets]
    rcases hbr2 : bucketRecords logs2 cb.toNat with _ | ⟨y, ys⟩
    · have hred : (match (match ([] : List LogRecord) with
          | [] => none
          | rs => some (cb.toNat, rs)) with
          | none => false
          | some b2 =>
            !((rs.filter (fun log => pyLower log.level == "error")).isEmpty
              || (b2.2.filter (fun log => pyLower log.level == "error")).isEmpty)) = false := rfl
      rw [hred]
      simp only [Bool.false_eq_true, false_iff, not_and]
      intro hrs hB
      rcases hBiff.mp hB with ⟨h0, hne⟩
      rw [hbr2] at hne
      exact hne (by simp)
    · have hred : (match (match (y :: ys : List LogRecord) with
          | [] => none
          | rs => some (cb.toNat, rs)) with
          | none => false
          | some b2 =>
            !((rs.filter (fun log => pyLower log.level == "error")).isEmpty
              || (b2.2.filter (fun log => pyLower log.level == "error")).isEmpty))
          = !((rs.filter (fun log => pyLower log.level == "error")).isEmpty
              || ((y :: ys).filter (fun log => pyLower log.level == "error")).isEmpty) := rfl
      rw [hred, hBiff, hbr2]
      simp only [Bool.not_eq_true', Bool.or_eq_false_iff, List.isEmpty_eq_false]
      constructor
      · rintro ⟨h1, h2⟩
        exact ⟨h1, hcb, h2⟩
      · rintro ⟨h1, h0, h2⟩
        exact ⟨h1, h2⟩
  · rw [if_neg hcb]
    simp only [Bool.false_eq_true, false_iff, not_and]
    intro hrs hB
    exact hcb (hBiff.mp hB).1

theorem inner_count (logs2 : List LogRecord) (bkey : Nat) (rs : List LogRecord)
    (lo hi o : Int) (b : Nat) :
    List.countP (fun (c : TimelineCorrelation) => decide (c.time_bucket = b ∧ c.time_offset_minutes = o))
      (List.filterMap
        (fun minutes_offset =>
          match (buildBuckets logs2).find?
              (fun b2 => decide ((b2.1 : Int) = (bkey : Int) + minutes_offset * 60000000)) with
          | none => none
          | some b2 =>
            if ((rs.filter (fun log => pyLower log.level == "error")).isEmpty
                || (b2.2.filter (fun log => pyLower log.level == "error")).isEmpty) = true
            then none
            else some { time_bucket := bkey, server1_events := rs.length,
                        server2_events := b2.2.length,
                        server1_errors := (rs.filter (fun log => pyLower log.level == "error")).length,
                        server2_errors := (b2.2.filter (fun log => pyLower log.level == "error")).length,
                        time_offset_minutes := minutes_offset })
        (intRange lo hi))
      = if (bkey = b ∧ (lo ≤ o ∧ o < hi)
            ∧ (rs.filter (fun log => pyLower log.level == "error")).isEmpty = false
            ∧ (∃ r ∈ logs2, errorInBucketInt ((bkey : Int) + o * 60000000) r = true))
        then 1 else 0 := by
  rw [List.countP_filterMap]
  rw [List.countP_congr (q := fun off => decide (off = o) && (decide (bkey = b) &&
      (match (buildBuckets logs2).find?
          (fun b2 => decide ((b2.1 : Int) = (bkey : Int) + off * 60000000)) with
        | none => false
        | some b2 =>
          !((rs.filter (fun log => pyLower log.level == "error")).isEmpty
            || (b2.2.filter (fun log => pyLower log.level == "error")).isEmpty)))) ?hpoint]
  case hpoint =>
    intro off hoff
    rcases hfind : (buildBuckets logs2).find?
        (fun b2 => decide ((b2.1 : Int) = (bkey : Int) + off * 60000000)) with _ | b2
    · simp [hfind]
    · simp only [hfind]
      by_cases hemp : ((rs.filter (fun log => pyLower log.level == "error")).isEmpty
          || (b2.2.filter (fun log => pyLower log.level == "error")).isEmpty) = true
      · rw [if_pos hemp]
        simp [hemp]
      · rw [if_neg hemp]
        simp [hemp, and_comm]
  rw [countP_eq_single _ (nodup_intRange lo hi) o _]
  refine if_congr ?_ rfl rfl
  rw [mem_intRange, Bool.and_eq_true, decide_eq_true_eq, emission_some_iff,
    List.isEmpty_eq_false]
  constructor
  · rintro ⟨hrange, hb, hrest⟩
    exact ⟨hb, hrange, hrest⟩
  · rintro ⟨hb, hrange, hrest⟩
    exact ⟨hrange, hb, hrest⟩

/-- C4: `find_timeline_correlations(logs1, logs2, w)` emits exactly one
`TimelineCorrelation` per (A-bucket, offset) pair — for every integer
offset in `[-floor(w), floor(w)]` inclusive — precisely when the A bucket
and the B bucket at `bucket + offset` minutes each contain at least one
record whose level is "error" case-insensitively; the count is stated
exactly (1 when the condition holds, 0 otherwise), so qualifying offsets
for the same bucket pair are all emitted and nothing is deduplicated. -/
theorem c4_timeline_exact (logs1 logs2 : List LogRecord) (w : ℚ) (hw : 0 ≤ w)
    (b : Nat) (o : Int) :
    (find_timeline_correlations logs1 logs2 w).countP
        (fun c => decide (c.time_bucket = b ∧ c.time_offset_minutes = o))
      = if (-⌊w⌋ ≤ o ∧ o ≤ ⌊w⌋
            ∧ (∃ r ∈ logs1, errorInBucket b r = true)
            ∧ (∃ r ∈ logs2, errorInBucketInt ((b : Int) + o * 60000000) r = true))
        then 1 else 0 := by
  simp only [find_timeline_correlations, pyInt_eq_floor w hw]
  rw [List.countP_flatMap]
  rw [sum_countP_buckets (buildBuckets logs1) (keysNodup_buildBuckets logs1) b _ ?hz]
  case hz =>
    intro e he hne
    simp only [Function.comp]
    rw [List.countP_eq_zero]
    intro c hc
    rcases List.mem_filterMap.mp hc with ⟨off, hoff, hemit⟩
    rcases hfind : (buildBuckets logs2).find?
        (fun b2 => decide ((b2.1 : Int) = (e.1 : Int) + off * 60000000)) with _ | b2
    · simp only [hfind] at hemit
      exact absurd hemit (by simp)
    · simp only [hfind] at hemit
      by_cases hemp : ((e.2.filter (fun log => pyLower log.level == "error")).isEmpty
          || ((b2.2.filter (fun log => pyLower log.level == "error")).isEmpty)) = true
      · rw [if_pos hemp] at hemit; exact absurd hemit (by simp)
      · rw [if_neg hemp, Option.some.injEq] at hemit
        subst hemit
        simp only [decide_eq_true_eq, not_and]
        intro hb
        exact absurd hb hne
  rw [find?_buildBuckets]
  cases hbr : bucketRecords logs1 b with
  | nil =>
    have hA : ¬ ∃ r ∈ logs1, errorInBucket b r = true := by
      rw [← filter_error_bucketRecords, hbr]
      simp
    rw [if_neg (fun hcond => hA hcond.2.2.1)]
  | cons x xs =>
    have hAiff : ((x :: xs).filter (fun log => pyLower log.level == "error")).isEmpty = false
        ↔ (∃ r ∈ logs1, errorInBucket b r = true) := by
      rw [List.isEmpty_eq_false, ← hbr, filter_error_bucketRecords]
    have hCC : (b = b ∧ (-⌊w⌋ ≤ o ∧ o < ⌊w⌋ + 1)
        ∧ ((x :: xs).filter (fun log => pyLower log.level == "error")).isEmpty = false
        ∧ (∃ r ∈ logs2, errorInBucketInt ((b : Int) + o * 60000000) r = true))
        ↔ (-⌊w⌋ ≤ o ∧ o ≤ ⌊w⌋
        ∧ (∃ r ∈ logs1, errorInBucket b r = true)
        ∧ (∃ r ∈ logs2, errorInBucketInt ((b : Int) + o * 60000000) r = true)) := by
      constructor
      · rintro ⟨hb, ⟨h1, h2⟩, h3, h4⟩
        exact ⟨h1, Int.lt_add_one_iff.mp h2, hAiff.mp h3, h4⟩
      · rintro ⟨h1, h2, h3, h4⟩
        exact ⟨rfl, ⟨h1, Int.lt_add_one_iff.mpr h2⟩, hAiff.mpr h3, h4⟩
    exact (inner_count logs2 b (x :: xs) (-⌊w⌋) (⌊w⌋ + 1) o b).trans (if_congr hCC rfl rfl)

/-- An error-level record with a real parsed timestamp of `n` microseconds
since the epoch. -/
def c4Record (n : Nat) : LogRecord where
  raw := Json.obj []
  line_number := 1
  file_name := "a.log"
  server_name := "A"
  timestamp := "t"
  parsed_timestamp := Timestamp.real n
  level := "error"
  component := "c"
  message := ""
  full_message := ""

/-- Witness for C4: an A-side error at minute 600 and a B-side error at
minute 601.5 with a 2-minute window, queried at bucket 600 min and
offset +1. -/
theorem c4_timeline_exact_witness :
    0 ≤ (2 : ℚ) ∧
    (find_timeline_correlations [c4Record 36000000000] [c4Record 36090000000] 2).countP
        (fun c => decide (c.time_bucket = 36000000000 ∧ c.time_offset_minutes = 1))
      = if (-⌊(2 : ℚ)⌋ ≤ (1 : Int) ∧ (1 : Int) ≤ ⌊(2 : ℚ)⌋
            ∧ (∃ r ∈ [c4Record 36000000000], errorInBucket 36000000000 r = true)
            ∧ (∃ r ∈ [c4Record 36090000000],
                errorInBucketInt ((36000000000 : Int) + 1 * 60000000) r = true))
        then 1 else 0 :=
  ⟨by norm_num, c4_timeline_exact [c4Record 36000000000] [c4Record 36090000000] 2
      (by norm_num) 36000000000 1⟩


/-! ## C2: similarity is reflexive below the autojunk threshold, but not symmetric -/

theorem flmInner_append (p : Nat → Nat) (i blo bhi : Nat) (l1 l2 : List Nat)
    (m : Nat → Nat) (best : Nat × Nat × Nat) (hlt : ∀ j ∈ l1, j < bhi) :
    flmInner p i blo bhi (l1 ++ l2) m best =
      flmInner p i blo bhi l2 (flmInner p i blo bhi l1 m best).1
        (flmInner p i blo bhi l1 m best).2 := by
  induction l1 generalizing m best with
  | nil => simp [flmInner]
  | cons j js ih =>
    have hj : j < bhi := hlt j (by simp)
    have hlt2 : ∀ x ∈ js, x < bhi := fun x hx => hlt x (by simp [hx])
    by_cases hblo : j < blo
    · simp only [List.cons_append, flmInner, if_pos hblo]
      exact ih _ _ hlt2
    · by_cases hbest : best.2.2 < (if j = 0 then 0 else p (j - 1)) + 1
      · simp only [List.cons_append, flmInner, if_neg hblo, if_neg (Nat.not_le.mpr hj),
          if_pos hbest]
        exact ih _ _ hlt2
      · simp only [List.cons_append, flmInner, if_neg hblo, if_neg (Nat.not_le.mpr hj),
          if_neg hbest]
        exact ih _ _ hlt2

theorem flmInner_no_update (p : Nat → Nat) (i bhi : Nat) (js : List Nat)
    (m : Nat → Nat) (best : Nat × Nat × Nat)
    (hk : ∀ j ∈ js, (if j = 0 then 0 else p (j - 1)) + 1 ≤ best.2.2)
    (hlt : ∀ j ∈ js, j < bhi) :
    flmInner p i 0 bhi js m best =
      ((fun j => if j ∈ js then (if j = 0 then 0 else p (j - 1)) + 1 else m j), best) := by
  induction js generalizing m with
  | nil =>
    simp [flmInner]
  | cons j js ih =>
    have hj : j < bhi := hlt j (by simp)
    have hlt2 : ∀ x ∈ js, x < bhi := fun x hx => hlt x (by simp [hx])
    have hk2 : ∀ x ∈ js, (if x = 0 then 0 else p (x - 1)) + 1 ≤ best.2.2 :=
      fun x hx => hk x (by simp [hx])
    have hkj : (if j = 0 then 0 else p (j - 1)) + 1 ≤ best.2.2 := hk j (by simp)
    simp only [flmInner, if_neg (Nat.not_lt_zero j), if_neg (Nat.not_le.mpr hj),
      if_neg (Nat.not_lt.mpr hkj)]
    rw [ih _ hk2 hlt2]
    refine Prod.ext ?_ rfl
    funext x
    by_cases hxjs : x ∈ js
    · simp [hxjs]
    · by_cases hxj : x = j
      · subst hxj
        simp [hxjs]
      · simp [hxjs, hxj]

theorem mem_positions (b : List Char) (c : Char) (j : Nat) :
    j ∈ positions b c ↔ j < b.length ∧ b[j]? = some c := by
  simp [positions, List.mem_filter, List.mem_range]

theorem positions_sorted (b : List Char) (c : Char) :
    (positions b c).Pairwise (· < ·) :=
  (List.pairwise_lt_range b.length).filter _

theorem self_mem_positions (a : List Char) (i : Nat) (hi : i < a.length) :
    i ∈ positions a (a.getD i 'a') := by
  rw [mem_positions]
  refine ⟨hi, ?_⟩
  rw [List.getElem?_eq_getElem hi, List.getD_eq_getElem a 'a' hi]

theorem flmRow (a : List Char) (i : Nat) (hi : i < a.length)
    (p : Nat → Nat) (hp : ∀ j, p j ≤ i ∧ p j ≤ j + 1) (hd : 0 < i → p (i - 1) = i)
    (b1 b2 : Nat) :
    ∃ m', flmInner p i 0 a.length (positions a (a.getD i 'a')) (fun _ => 0) (b1, b2, i)
        = (m', (0, 0, i + 1))
      ∧ (∀ j, m' j ≤ i + 1 ∧ m' j ≤ j + 1) ∧ m' i = i + 1 := by
  obtain ⟨l1, l2, hsplit⟩ := List.append_of_mem (self_mem_positions a i hi)
  have hpw := positions_sorted a (a.getD i 'a')
  rw [hsplit] at hpw
  have hpw2 := List.pairwise_append.mp hpw
  have hl1lt : ∀ j ∈ l1, j < i := fun j hj => hpw2.2.2 j hj i (by simp)
  have hl2gt : ∀ j ∈ l2, i < j := fun j hj => (List.pairwise_cons.mp hpw2.2.1).1 j hj
  have hmemlen : ∀ j ∈ positions a (a.getD i 'a'), j < a.length :=
    fun j hj => ((mem_positions a _ j).mp hj).1
  have hl1len : ∀ j ∈ l1, j < a.length :=
    fun j hj => hmemlen j (by rw [hsplit]; exact List.mem_append_left _ hj)
  have hl2len : ∀ j ∈ l2, j < a.length :=
    fun j hj => hmemlen j (by rw [hsplit]; simp [hj])
  have hkl1 : ∀ j ∈ l1, (if j = 0 then 0 else p (j - 1)) + 1
      ≤ (((b1, b2, i) : Nat × Nat × Nat)).2.2 := by
    intro j hj
    have hji := hl1lt j hj
    by_cases hj0 : j = 0
    · simpa [hj0] using Nat.lt_of_lt_of_le (by omega : (0:Nat) < 1) (by omega : 1 ≤ i)
    · have := (hp (j - 1)).2
      simp only [if_neg hj0]
      omega
  rw [hsplit, flmInner_append p i 0 a.length l1 (i :: l2) _ _ hl1len,
    flmInner_no_update p i a.length l1 _ _ hkl1 hl1len]
  have hki : (if i = 0 then 0 else p (i - 1)) + 1 = i + 1 := by
    by_cases hi0 : i = 0
    · simp [hi0]
    · rw [if_neg hi0, hd (Nat.pos_of_ne_zero hi0)]
  simp only [flmInner, if_neg (Nat.not_lt_zero i), if_neg (Nat.not_le.mpr hi), hki,
    if_pos (Nat.lt_succ_self i)]
  have hsub : i + 1 - (i + 1) = 0 := by omega
  rw [hsub]
  have hkl2 : ∀ j ∈ l2, (if j = 0 then 0 else p (j - 1)) + 1
      ≤ (((0, 0, i + 1) : Nat × Nat × Nat)).2.2 := by
    intro j hj
    have hji := hl2gt j hj
    have hj0 : ¬ j = 0 := by omega
    have := (hp (j - 1)).1
    simp only [if_neg hj0]
    omega
  rw [flmInner_no_update p i a.length l2 _ _ hkl2 hl2len]
  refine ⟨_, rfl, ?_, ?_⟩
  · intro j
    by_cases hjl2 : j ∈ l2
    · have hji := hl2gt j hjl2
      have hj0 : ¬ j = 0 := by omega
      have h1 := (hp (j - 1)).1
      have h2 := (hp (j - 1)).2
      simp only [if_pos hjl2, if_neg hj0]
      omega
    · simp only [if_neg hjl2]
      by_cases hji : j = i
      · subst hji
        simp
      · simp only [if_neg hji]
        by_cases hjl1 : j ∈ l1
        · have hjlt := hl1lt j hjl1
          simp only [if_pos hjl1]
          by_cases hj0 : j = 0
          · simp [hj0]
          · have h2 := (hp (j - 1)).2
            simp only [if_neg hj0]
            omega
        · simp [hjl1]
  · have hinotl2 : i ∉ l2 := fun h => absurd (hl2gt i h) (by omega)
    simp [hinotl2]

theorem flmOuter_diag (a : List Char) (cnt : Nat) : ∀ s (p : Nat → Nat),
    s + cnt = a.length →
    (∀ j, p j ≤ s ∧ p j ≤ j + 1) → (0 < s → p (s - 1) = s) →
    flmOuter a (positions a) 0 a.length (List.range' s cnt) p (0, 0, s)
      = (0, 0, a.length) := by
  induction cnt with
  | zero =>
    intro s p hs hp hd
    have hsl : s = a.length := by omega
    simp [flmOuter, hsl]
  | succ k ih =>
    intro s p hs hp hd
    have hslt : s < a.length := by omega
    obtain ⟨m', hrow, hbnd, hdiag⟩ := flmRow a s hslt p hp hd 0 0
    rw [List.range'_succ]
    simp only [flmOuter, hrow]
    exact ih (s + 1) m' (by omega) hbnd (fun _ => by simpa using hdiag)

theorem findLongestMatch_diag (a : List Char) :
    findLongestMatch a a (positions a) 0 a.length 0 a.length = (0, 0, a.length) := by
  have houter := flmOuter_diag a a.length 0 (fun _ => 0) (by omega)
    (fun j => ⟨Nat.zero_le _, Nat.zero_le _⟩) (by omega)
  have hfwd : extendFwd a a a.length a.length 0 0 a.length a.length = a.length := by
    cases hn : a.length with
    | zero => rfl
    | succ m =>
      simp only [extendFwd]
      rw [if_neg (fun hcond => absurd hcond.1 (by omega))]
  simp only [findLongestMatch, Nat.sub_zero, houter]
  simp only [extendBack, hfwd]

theorem seqMatcherTotal_self (a : List Char) (h : a.length < 200) :
    seqMatcherTotal a a = a.length := by
  have hb2j : b2j a = positions a := by
    funext c
    simp [b2j, Nat.not_le.mpr h]
  have hflm := findLongestMatch_diag a
  simp only [seqMatcherTotal, hb2j, matchTotalAux, hflm]
  by_cases hz : a.length = 0
  · simp [hz]
  · rw [if_neg hz, if_neg (fun hcond => absurd hcond.1 (by omega)),
      if_neg (fun hcond => absurd hcond.1 (by omega : ¬ 0 + a.length < a.length))]
    omega

/-- C2 counterexample: the similarity function is not symmetric.
`SequenceMatcher('tide','diet').ratio()` is `0.25` (one matching block,
the single character `t`), while `SequenceMatcher('diet','tide').ratio()`
is `0.5` (two matching characters), so `sim(a,b) = sim(b,a)` fails. -/
theorem c2_counterexample :
    calculate_similarity "tide" "diet" ≠ calculate_similarity "diet" "tide" := by
  have h1 : seqMatcherTotal "tide".toList "diet".toList = 1 := by decide
  have h2 : seqMatcherTotal "diet".toList "tide".toList = 2 := by decide
  have hl1 : ("tide".toList.length) = 4 := by decide
  have hl2 : ("diet".toList.length) = 4 := by decide
  simp only [calculate_similarity, smRatio, h1, h2, hl1, hl2]
  norm_num

/-- C2 (amended): the similarity function is reflexive below the
autojunk threshold — for every string `a` with fewer than 200
characters, `calculate_similarity a a = 1`.  (For `len(b) >= 200`
difflib's autojunk purge changes the index `b2j`, which this theorem
does not cover.)  The diagonal argument: with `a = b` the dynamic
program grows the run ending at `(i, i)` to length `i + 1` on every row,
so the best block is the whole string and `ratio = 2n/2n = 1`. -/
theorem c2_reflexive (a : String) (h : a.length < 200) :
    calculate_similarity a a = 1 := by
  have hlen : a.toList.length = a.length := rfl
  have hst := seqMatcherTotal_self a.toList (by rw [hlen]; exact h)
  simp only [calculate_similarity, smRatio, hst]
  by_cases hz : a.toList.length + a.toList.length = 0
  · rw [if_pos hz]
  · rw [if_neg hz]
    have hq : ((a.toList.length + a.toList.length : Nat) : ℚ) ≠ 0 := by
      exact_mod_cast hz
    rw [div_eq_one_iff_eq hq]
    push_cast
    ring

/-- Witness for C2: the three-character string "abc" is below the
autojunk threshold and has self-similarity 1. -/
theorem c2_reflexive_witness :
    ("abc" : String).length < 200 ∧ calculate_similarity "abc" "abc" = 1 :=
  ⟨by decide, c2_reflexive "abc" (by decide)⟩

end LogAnalyzer
